import Mathlib

/-!
Verification of the iroh-store configuration module
(`iroh-store/src/config.rs`) against its specification.

The module under verification defines `Config` (the node store
configuration), its constructors `new_with_rpc` and `new_grpc`, the
address-derivation operation `server_rpc_addr`, and its participation in
the hierarchical configuration-merge protocol through `clone_into_box`
and `collect`.

External collaborators that live in other crates of the repository
(the RPC address type `Addr`, `RpcClientConfig`, `MetricsConfig`, the
`config` crate's `Map`/`Value`, `insert_into_config_map` from
`iroh-util`, and `std::path::PathBuf`) are modelled from the
specification, as documented on each definition.
-/

namespace IrohStore

/-! ### Bytes, UTF-8 and paths

`std::path::PathBuf` is external to the module.  Modelled from the spec:
a filesystem path is a sequence of OS-level bytes; it "must be
representable as a valid text string" for merge purposes, and may contain
"certain non-text byte sequences in path components".  On the platforms
the spec describes, text-representability of a byte sequence is UTF-8
validity, which we model faithfully. -/

/-- A filesystem path, as the sequence of its OS-level bytes. -/
abbrev PathBuf := List Nat

/-- A UTF-8 continuation byte (`10xxxxxx`). -/
def contByte (b : Nat) : Prop := 0x80 ≤ b ∧ b < 0xC0

instance (b : Nat) : Decidable (contByte b) := by
  unfold contByte; infer_instance

/-- Decode one UTF-8 scalar value off the front of a byte sequence,
returning it with the remaining bytes, or `none` when the head bytes are
not a valid encoding (overlong encodings, surrogates and out-of-range
values are rejected, as in Rust's `str::from_utf8`). -/
def utf8DecodeStep : List Nat → Option (Nat × List Nat)
  | [] => none
  | b0 :: rest =>
    if b0 < 0x80 then some (b0, rest)
    else if b0 < 0xC2 then none
    else if b0 < 0xE0 then
      match rest with
      | b1 :: rest1 =>
        if contByte b1 then some ((b0 - 0xC0) * 0x40 + (b1 - 0x80), rest1) else none
      | [] => none
    else if b0 < 0xF0 then
      match rest with
      | b1 :: b2 :: rest2 =>
        if contByte b1 ∧ contByte b2 then
          let c := (b0 - 0xE0) * 0x1000 + (b1 - 0x80) * 0x40 + (b2 - 0x80)
          if 0x800 ≤ c ∧ ¬ (0xD800 ≤ c ∧ c < 0xE000) then some (c, rest2) else none
        else none
      | _ => none
    else if b0 < 0xF5 then
      match rest with
      | b1 :: b2 :: b3 :: rest3 =>
        if contByte b1 ∧ contByte b2 ∧ contByte b3 then
          let c := (b0 - 0xF0) * 0x40000 + (b1 - 0x80) * 0x1000 +
                   (b2 - 0x80) * 0x40 + (b3 - 0x80)
          if 0x10000 ≤ c ∧ c < 0x110000 then some (c, rest3) else none
        else none
      | _ => none
    else none

/-- Decode a whole byte sequence as UTF-8, one scalar value at a time;
the fuel bounds the number of scalar values (one byte each at least, so
the sequence's length suffices). -/
def utf8DecodeAux : Nat → List Nat → Option (List Nat)
  | _, [] => some []
  | 0, _ :: _ => none
  | fuel + 1, b0 :: rest =>
    match utf8DecodeStep (b0 :: rest) with
    | some (c, rest') => (utf8DecodeAux fuel rest').map (fun cs => c :: cs)
    | none => none

/-- Decode a byte sequence as UTF-8, producing the sequence of Unicode
scalar values, or `none` when the bytes are not valid UTF-8. -/
def utf8Decode (bs : List Nat) : Option (List Nat) :=
  utf8DecodeAux bs.length bs

/-- UTF-8 encoding of a single Unicode scalar value. -/
def utf8EncodeChar (c : Nat) : List Nat :=
  if c < 0x80 then [c]
  else if c < 0x800 then [0xC0 + c / 0x40, 0x80 + c % 0x40]
  else if c < 0x10000 then
    [0xE0 + c / 0x1000, 0x80 + (c / 0x40) % 0x40, 0x80 + c % 0x40]
  else
    [0xF0 + c / 0x40000, 0x80 + (c / 0x1000) % 0x40, 0x80 + (c / 0x40) % 0x40, 0x80 + c % 0x40]

/-- UTF-8 encoding of a sequence of Unicode scalar values. -/
def utf8Encode (cs : List Nat) : List Nat :=
  cs.foldr (fun c acc => utf8EncodeChar c ++ acc) []

/-- `PathBuf::to_str`: view the path's bytes as text exactly when they are
valid UTF-8 (Rust performs no conversion, only validation). -/
def pathToStr (p : PathBuf) : Option String :=
  (utf8Decode p).map (fun cs => String.mk (cs.map Char.ofNat))

/-- Rebuilding a `PathBuf` from text (`PathBuf::from(String)`): the path's
bytes are the UTF-8 encoding of the text. -/
def pathFromStr (s : String) : PathBuf :=
  utf8Encode (s.data.map Char.toNat)

/-! ### The RPC address type

Modelled from the spec: the repository's `iroh-rpc-types` crate (not part
of the module under verification) provides a closed set of address
variants — a host/port network form (`GrpcHttp2`), an OS-level
unix-domain-socket form (`GrpcUds`), and an in-process channel form
(`Mem`) whose payload is a channel handle with no externally bindable
representation.  Client- and server-facing addresses share the same
description. -/

/-- An IPv4 host/port socket address.  The octet and port fields are `Nat`
images of Rust's `u8`/`u16` components; `SocketAddr.wf` states the
corresponding bounds. -/
structure SocketAddr where
  ipa : Nat
  ipb : Nat
  ipc : Nat
  ipd : Nat
  port : Nat
deriving DecidableEq, Repr

/-- The bounds Rust's `u8` octets and `u16` port satisfy by type. -/
def SocketAddr.wf (a : SocketAddr) : Prop :=
  a.ipa < 256 ∧ a.ipb < 256 ∧ a.ipc < 256 ∧ a.ipd < 256 ∧ a.port < 65536

instance (a : SocketAddr) : Decidable a.wf := by
  unfold SocketAddr.wf; infer_instance

/-- An in-process channel handle (opaque; carries no bindable address). -/
structure MemChannel where
  id : Nat
deriving DecidableEq, Repr

/-- The closed set of RPC address variants. -/
inductive Addr where
  | GrpcHttp2 (addr : SocketAddr)
  | GrpcUds (path : String)
  | Mem (chan : MemChannel)
deriving DecidableEq, Repr

/-- Client-facing store address (same description as the server form). -/
abbrev StoreClientAddr := Addr
/-- Server-facing store address (same description as the client form). -/
abbrev StoreServerAddr := Addr

/-- The network-reachable (socket-backed) variants. -/
def Addr.isNetwork : Addr → Bool
  | .GrpcHttp2 _ => true
  | .GrpcUds _ => true
  | .Mem _ => false

/-- Well-formedness of an address: its numeric components fit the Rust
machine-integer types they are stored in. -/
def Addr.wf : Addr → Prop
  | .GrpcHttp2 a => a.wf
  | .GrpcUds _ => True
  | .Mem _ => True

instance (a : Addr) : Decidable a.wf := by
  cases a <;> (unfold Addr.wf; infer_instance)

/-! ### The `config` crate's map and value types

Modelled from the spec: the external merge engine works with a key→value
mapping whose values are either string text or nested mappings; `collect`
inserts `path` "as its string-text representation" and the nested blocks
"as whatever nested mapping their own `collect()` produces". -/

/-- A merge-engine value: string text or a nested mapping. -/
inductive CValue where
  | str (s : String)
  | table (m : List (String × CValue))

/-- The merge engine's error type.  Only the foreign-error constructor is
reachable from this module. -/
inductive ConfigError where
  | Foreign (msg : String)
deriving DecidableEq

/-- Modelled from the spec: `iroh-util`'s `insert_into_config_map` binds a
key to a value in the mapping, overriding any earlier binding for the
same key. -/
def insert_into_config_map (m : List (String × CValue)) (k : String) (v : CValue) :
    List (String × CValue) :=
  match m with
  | [] => [(k, v)]
  | (k', v') :: rest => if k' = k then (k, v) :: rest else (k', v') :: insert_into_config_map rest k v

/-- Look a key up in a mapping (first binding wins). -/
def lookupKey (m : List (String × CValue)) (k : String) : Option CValue :=
  match m with
  | [] => none
  | (k', v') :: rest => if k' = k then some v' else lookupKey rest k

/-! ### Serialized form of addresses

Modelled from the spec: addresses have a textual description — the
network form is written `grpc://host:port` (the well-known constant in
`new_grpc` is `"grpc://0.0.0.0:4402"`), the unix-socket form carries a
socket path, and the in-process form has no externally usable
representation, so its text does not parse back. -/

/-- Decimal digits of `n`, least significant first, with enough fuel to
consume every digit (structural recursion so that the kernel can
evaluate it). -/
def natDigitsRevAux : Nat → Nat → List Nat
  | 0, _ => []
  | fuel + 1, n => if n < 10 then [n] else n % 10 :: natDigitsRevAux fuel (n / 10)

/-- Decimal digits of `n`, least significant first. -/
def natDigitsRev (n : Nat) : List Nat :=
  natDigitsRevAux (n + 1) n

/-- Decimal text of `n`, most significant digit first. -/
def natToChars (n : Nat) : List Char :=
  (natDigitsRev n).reverse.map (fun d => Char.ofNat (48 + d))

/-- Textual form of a socket address: `a.b.c.d:port`. -/
def socketAddrToChars (a : SocketAddr) : List Char :=
  natToChars a.ipa ++ '.' :: natToChars a.ipb ++ '.' :: natToChars a.ipc ++
    '.' :: natToChars a.ipd ++ ':' :: natToChars a.port

/-- Textual description of an address (Rust `Display`/serde form). -/
def addrToString : Addr → String
  | .GrpcHttp2 a => String.mk ('g' :: 'r' :: 'p' :: 'c' :: ':' :: '/' :: '/' :: socketAddrToChars a)
  | .GrpcUds p => String.mk ('g' :: 'r' :: 'p' :: 'c' :: ':' :: '/' :: '/' :: 'u' :: 'd' :: 's' :: ':' :: p.data)
  | .Mem _ => "mem"

/-- Value of a digit character, if any. -/
def charToDigit (c : Char) : Option Nat :=
  if 48 ≤ c.toNat ∧ c.toNat ≤ 57 then some (c.toNat - 48) else none

/-- Fold decimal digit characters onto an accumulator. -/
def parseNatAux : List Char → Nat → Option Nat
  | [], acc => some acc
  | c :: rest, acc =>
    match charToDigit c with
    | some d => parseNatAux rest (10 * acc + d)
    | none => none

/-- Parse a non-empty all-digit character sequence as a `Nat`. -/
def parseNatChars (cs : List Char) : Option Nat :=
  match cs with
  | [] => none
  | _ => parseNatAux cs 0

/-- Split a character sequence at every occurrence of `sep`. -/
def splitOnChar (sep : Char) : List Char → List (List Char)
  | [] => [[]]
  | c :: rest =>
    match splitOnChar sep rest with
    | [] => if c = sep then [[], []] else [[c]]
    | g :: gs => if c = sep then [] :: g :: gs else (c :: g) :: gs

/-- Parse one IPv4 octet: digits with value at most 255. -/
def parseOctet (cs : List Char) : Option Nat :=
  match parseNatChars cs with
  | some n => if n ≤ 255 then some n else none
  | none => none

/-- Parse `a.b.c.d:port` into a socket address. -/
def parseSocketAddrChars (cs : List Char) : Option SocketAddr :=
  match splitOnChar ':' cs with
  | [hostCs, portCs] =>
    match splitOnChar '.' hostCs with
    | [aCs, bCs, cCs, dCs] =>
      match parseOctet aCs, parseOctet bCs, parseOctet cCs, parseOctet dCs,
          parseNatChars portCs with
      | some a, some b, some c, some d, some port =>
        if port ≤ 65535 then some ⟨a, b, c, d, port⟩ else none
      | _, _, _, _, _ => none
    | _ => none
  | _ => none

/-- Remove an expected prefix from a character sequence, or fail. -/
def stripPrefixChars : List Char → List Char → Option (List Char)
  | [], cs => some cs
  | _ :: _, [] => none
  | p :: ps, c :: cs => if c = p then stripPrefixChars ps cs else none

/-- Modelled from the spec: the address parser of the repository's RPC
address types.  A `grpc://` URI denotes a unix socket when the remainder
is `uds:`-prefixed and a host/port network address otherwise; the
in-process form cannot be parsed from text (its channel handle cannot be
conjured from a description). -/
def parseAddrChars (cs : List Char) : Option Addr :=
  match stripPrefixChars ['g', 'r', 'p', 'c', ':', '/', '/'] cs with
  | none => none
  | some rest =>
    match stripPrefixChars ['u', 'd', 's', ':'] rest with
    | some p => some (.GrpcUds (String.mk p))
    | none => (parseSocketAddrChars rest).map .GrpcHttp2

/-- `str::parse` for addresses, over the string's characters. -/
def parseAddr (s : String) : Option Addr :=
  parseAddrChars s.data

/-! ### The nested configuration blocks

Modelled from the spec: `RpcClientConfig` and `MetricsConfig` are opaque
nested configurations owned by other crates of the repository.  Each
"supplies its own contribution to the merged configuration map" via a
`collect()`-equivalent operation and "must support round-trip
deserialization from a merged mapping back into their own typed form".
Beyond its store-address field, the spec gives `RpcClientConfig` no
structure ("all other RPC-client fields at their defaults"), so the
remaining fields are represented by an opaque block whose only
spec-relevant state is its default value. -/

/-- The RPC-client fields other than `store_addr`: opaque to this module;
the spec only ever speaks of them collectively being "at their defaults". -/
structure RpcOtherFields where
deriving DecidableEq, Repr

/-- The `Default::default()` value of the opaque remainder block. -/
def RpcOtherFields.default : RpcOtherFields := {}

/-- Modelled from the spec: the external RPC-client configuration,
"describes how this node's store service is addressed for RPC purposes";
its store-address field is optional over the closed address set. -/
structure RpcClientConfig where
  store_addr : Option StoreClientAddr
  other : RpcOtherFields
deriving DecidableEq, Repr

/-- Modelled from the spec: `RpcClientConfig::default()` — no store
address configured, every other field at its default. -/
def RpcClientConfig.default : RpcClientConfig :=
  { store_addr := none, other := RpcOtherFields.default }

/-- The map fragment the RPC-client block contributes: its configured
store address under `store_addr`, in textual form. -/
def RpcClientConfig.collectFrag (c : RpcClientConfig) : List (String × CValue) :=
  match c.store_addr with
  | some a => [("store_addr", CValue.str (addrToString a))]
  | none => []

/-- Modelled from the spec: the RPC-client block's own `collect()`. -/
def RpcClientConfig.collect (c : RpcClientConfig) : Except ConfigError (List (String × CValue)) :=
  Except.ok c.collectFrag

/-- Modelled from the spec: rebuilding the RPC-client block from its map
fragment (serde deserialization through the merge engine). -/
def deserializeRpcClient (frag : List (String × CValue)) : Option RpcClientConfig :=
  match lookupKey frag "store_addr" with
  | none => some { store_addr := none, other := RpcOtherFields.default }
  | some (CValue.str s) =>
    (parseAddr s).map (fun a => { store_addr := some a, other := RpcOtherFields.default })
  | some (CValue.table _) => none

/-- Modelled from the spec: the external metrics configuration,
"describes metrics/telemetry export"; opaque to this module, a block of
textual settings. -/
structure MetricsConfig where
  settings : List (String × String)
deriving DecidableEq, Repr

/-- Modelled from the spec: `MetricsConfig::default()`. -/
def MetricsConfig.default : MetricsConfig := { settings := [] }

/-- The map fragment the metrics block contributes. -/
def MetricsConfig.collectFrag (m : MetricsConfig) : List (String × CValue) :=
  m.settings.map (fun kv => (kv.1, CValue.str kv.2))

/-- Modelled from the spec: the metrics block's own `collect()`. -/
def MetricsConfig.collect (m : MetricsConfig) : Except ConfigError (List (String × CValue)) :=
  Except.ok m.collectFrag

/-- String-valued entries of a map fragment; fails on nested tables. -/
def stringEntries : List (String × CValue) → Option (List (String × String))
  | [] => some []
  | (k, CValue.str v) :: rest => (stringEntries rest).map (fun l => (k, v) :: l)
  | (_, CValue.table _) :: _ => none

/-- Modelled from the spec: rebuilding the metrics block from its map
fragment. -/
def deserializeMetrics (frag : List (String × CValue)) : Option MetricsConfig :=
  (stringEntries frag).map MetricsConfig.mk

/-! ### The store configuration (`iroh-store/src/config.rs`)

The definitions below are translated from the source file under
verification. -/

/-- `CONFIG_FILE_NAME` from the source. -/
def CONFIG_FILE_NAME : String := "store.config.toml"

/-- `ENV_PREFIX` from the source. -/
def ENV_PREFIX : String := "IROH_STORE"

/-- The configuration for the store (`struct Config`). -/
structure Config where
  /-- The location of the content database. -/
  path : PathBuf
  rpc_client : RpcClientConfig
  metrics : MetricsConfig
deriving DecidableEq, Repr

/-- `Config::new_with_rpc` from the source: the given path, an RPC-client
block whose `store_addr` is `Some(client_addr)` with every other field
defaulted (`..Default::default()`), and a default metrics block. -/
def Config.new_with_rpc (path : PathBuf) (client_addr : StoreClientAddr) : Config :=
  { path
    rpc_client := { RpcClientConfig.default with store_addr := some client_addr }
    metrics := MetricsConfig.default }

/-- `Config::new_grpc` from the source: parse the constant
`"grpc://0.0.0.0:4402"` and delegate to `new_with_rpc`.  The source
`unwrap`s the parse; a parse failure is a panic, modelled as `none`. -/
def Config.new_grpc (path : PathBuf) : Option Config :=
  let addr := "grpc://0.0.0.0:4402"
  (parseAddr addr).map (fun a => Config.new_with_rpc path a)

/-- `Option<Result<T, E>>::transpose`. -/
def optionTranspose : Option (Except ε α) → Except ε (Option α)
  | none => Except.ok none
  | some (Except.ok a) => Except.ok (some a)
  | some (Except.error e) => Except.error e

/-- `Config::server_rpc_addr` from the source: derive the server listen
address from the configured client address — the identity on the socket
variants, `bail!` on the in-process variant, mapped over the optional
address and transposed. -/
def Config.server_rpc_addr (c : Config) : Except String (Option StoreServerAddr) :=
  optionTranspose <| c.rpc_client.store_addr.map fun addr =>
    match addr with
    | .GrpcHttp2 a => Except.ok (Addr.GrpcHttp2 a)
    | .GrpcUds p => Except.ok (Addr.GrpcUds p)
    | .Mem _ => Except.error "can not derive rpc_addr for mem addr"

/-- `<Config as Source>::clone_into_box` from the source: a boxed
structural clone (`Box::new(self.clone())`); the derived `Clone` copies
every field. -/
def Config.clone_into_box (c : Config) : Config :=
  { path := c.path, rpc_client := c.rpc_client, metrics := c.metrics }

/-- `<Config as Source>::collect` from the source: starting from an empty
map, turn `path` into text (failing with the foreign error
"No `path` set. Path is required." when the path is not representable as
text), insert it under `path`, and insert the nested blocks' own
`collect()` results under `rpc_client` and `metrics`. -/
def Config.collect (c : Config) : Except ConfigError (List (String × CValue)) := do
  let map : List (String × CValue) := []
  let path ←
    match pathToStr c.path with
    | some s => Except.ok s
    | none => Except.error (ConfigError.Foreign "No `path` set. Path is required.")
  let map := insert_into_config_map map "path" (CValue.str path)
  let rpcFrag ← c.rpc_client.collect
  let map := insert_into_config_map map "rpc_client" (CValue.table rpcFrag)
  let metricsFrag ← c.metrics.collect
  let map := insert_into_config_map map "metrics" (CValue.table metricsFrag)
  return map

/-! ### The merge engine

Modelled from the spec: the external hierarchical merge engine "merges
sources in registration order (later registrations override earlier
keys) and can materialize the merged result back into a typed
configuration struct". -/

/-- Merge one source's map over an accumulated map, key by key. -/
def mergeMaps (acc : List (String × CValue)) (m : List (String × CValue)) :
    List (String × CValue) :=
  m.foldl (fun acc kv => insert_into_config_map acc kv.1 kv.2) acc

/-- `ConfigBuilder::build` over already-collected sources, in
registration order. -/
def buildMerged (sources : List (List (String × CValue))) : List (String × CValue) :=
  sources.foldl mergeMaps []

/-- Modelled from the spec: `try_deserialize` — materialize the merged
mapping back into a typed `Config`, rebuilding each nested block through
its own deserialization. -/
def deserializeConfig (m : List (String × CValue)) : Option Config :=
  match lookupKey m "path", lookupKey m "rpc_client", lookupKey m "metrics" with
  | some (CValue.str p), some (CValue.table rpcFrag), some (CValue.table metricsFrag) =>
    match deserializeRpcClient rpcFrag, deserializeMetrics metricsFrag with
    | some rpc, some metrics => some { path := pathFromStr p, rpc_client := rpc, metrics }
    | _, _ => none
  | _, _, _ => none

/-! ### UTF-8 round-trip lemmas -/

theorem utf8Encode_cons (c : Nat) (cs : List Nat) :
    utf8Encode (c :: cs) = utf8EncodeChar c ++ utf8Encode cs := rfl

/-- A decoded scalar value is a valid `Char` code and re-encodes to
exactly the bytes consumed. -/
theorem utf8DecodeStep_spec (bs : List Nat) (c : Nat) (rest : List Nat)
    (h : utf8DecodeStep bs = some (c, rest)) :
    Nat.isValidChar c ∧ utf8EncodeChar c ++ rest = bs := by
  match bs with
  | [] => simp [utf8DecodeStep] at h
  | b0 :: tail =>
    simp only [utf8DecodeStep] at h
    split at h
    · -- one byte: b0 < 0x80
      simp only [Option.some.injEq, Prod.mk.injEq] at h
      obtain ⟨rfl, rfl⟩ := h
      refine ⟨Or.inl (by omega), ?_⟩
      have henc : utf8EncodeChar b0 = [b0] := by rw [utf8EncodeChar, if_pos (by omega)]
      rw [henc]
      rfl
    · split at h
      · -- 0x80 ≤ b0 < 0xC2: invalid lead byte
        exact absurd h (by simp)
      · split at h
        · -- two bytes: 0xC2 ≤ b0 < 0xE0
          split at h
          · rename_i b1 rest1
            split at h
            · rename_i hcont
              have hb1 : 0x80 ≤ b1 ∧ b1 < 0xC0 := hcont
              simp only [Option.some.injEq, Prod.mk.injEq] at h
              obtain ⟨rfl, rfl⟩ := h
              refine ⟨Or.inl (by omega), ?_⟩
              have henc : utf8EncodeChar ((b0 - 0xC0) * 0x40 + (b1 - 0x80)) = [b0, b1] := by
                rw [utf8EncodeChar, if_neg (by omega), if_pos (by omega)]
                simp only [List.cons.injEq, and_true]
                exact ⟨by omega, by omega⟩
              rw [henc]
              rfl
            · exact absurd h (by simp)
          · exact absurd h (by simp)
        · split at h
          · -- three bytes: 0xE0 ≤ b0 < 0xF0
            split at h
            · rename_i b1 b2 rest2
              split at h
              · rename_i hconts
                have hb1 : 0x80 ≤ b1 ∧ b1 < 0xC0 := hconts.1
                have hb2 : 0x80 ≤ b2 ∧ b2 < 0xC0 := hconts.2
                split at h
                · rename_i hrange
                  obtain ⟨hr1, hr2⟩ := hrange
                  simp only [Option.some.injEq, Prod.mk.injEq] at h
                  obtain ⟨rfl, rfl⟩ := h
                  refine ⟨?_, ?_⟩
                  · rcases Nat.lt_or_ge ((b0 - 0xE0) * 0x1000 + (b1 - 0x80) * 0x40 + (b2 - 0x80))
                      0xD800 with hlt' | hge
                    · exact Or.inl hlt'
                    · exact Or.inr ⟨by omega, by omega⟩
                  · have henc : utf8EncodeChar
                        ((b0 - 0xE0) * 0x1000 + (b1 - 0x80) * 0x40 + (b2 - 0x80))
                        = [b0, b1, b2] := by
                      rw [utf8EncodeChar, if_neg (by omega), if_neg (by omega), if_pos (by omega)]
                      simp only [List.cons.injEq, and_true]
                      exact ⟨by omega, by omega, by omega⟩
                    rw [henc]
                    rfl
                · exact absurd h (by simp)
              · exact absurd h (by simp)
            · exact absurd h (by simp)
          · split at h
            · -- four bytes: 0xF0 ≤ b0 < 0xF5
              split at h
              · rename_i b1 b2 b3 rest3
                split at h
                · rename_i hconts
                  have hb1 : 0x80 ≤ b1 ∧ b1 < 0xC0 := hconts.1
                  have hb2 : 0x80 ≤ b2 ∧ b2 < 0xC0 := hconts.2.1
                  have hb3 : 0x80 ≤ b3 ∧ b3 < 0xC0 := hconts.2.2
                  split at h
                  · rename_i hrange
                    obtain ⟨hr1, hr2⟩ := hrange
                    simp only [Option.some.injEq, Prod.mk.injEq] at h
                    obtain ⟨rfl, rfl⟩ := h
                    refine ⟨Or.inr ⟨by omega, by omega⟩, ?_⟩
                    have henc : utf8EncodeChar
                        ((b0 - 0xF0) * 0x40000 + (b1 - 0x80) * 0x1000 +
                          (b2 - 0x80) * 0x40 + (b3 - 0x80))
                        = [b0, b1, b2, b3] := by
                      rw [utf8EncodeChar, if_neg (by omega), if_neg (by omega), if_neg (by omega)]
                      simp only [List.cons.injEq, and_true]
                      exact ⟨by omega, by omega, by omega, by omega⟩
                    rw [henc]
                    rfl
                  · exact absurd h (by simp)
                · exact absurd h (by simp)
              · exact absurd h (by simp)
            · exact absurd h (by simp)

/-- Decoded scalar values are valid `Char` codes, and re-encoding them
yields the original byte sequence. -/
theorem utf8DecodeAux_spec (fuel : Nat) : ∀ (bs cs : List Nat),
    utf8DecodeAux fuel bs = some cs →
    (∀ c ∈ cs, Nat.isValidChar c) ∧ utf8Encode cs = bs := by
  induction fuel with
  | zero =>
    intro bs cs h
    cases bs with
    | nil =>
      simp only [utf8DecodeAux, Option.some.injEq] at h
      subst h
      exact ⟨by simp, rfl⟩
    | cons b0 tail => exact absurd h (by simp [utf8DecodeAux])
  | succ fuel ih =>
    intro bs cs h
    cases bs with
    | nil =>
      simp only [utf8DecodeAux, Option.some.injEq] at h
      subst h
      exact ⟨by simp, rfl⟩
    | cons b0 tail =>
      simp only [utf8DecodeAux] at h
      cases hstep : utf8DecodeStep (b0 :: tail) with
      | none => rw [hstep] at h; cases h
      | some pr =>
        obtain ⟨c, rest'⟩ := pr
        rw [hstep] at h
        simp only [Option.map_eq_some'] at h
        obtain ⟨a, ha, rfl⟩ := h
        obtain ⟨hval, henc⟩ := ih rest' a ha
        obtain ⟨hvc, hbytes⟩ := utf8DecodeStep_spec _ _ _ hstep
        refine ⟨?_, ?_⟩
        · intro x hx
          rcases List.mem_cons.mp hx with rfl | hm
          · exact hvc
          · exact hval x hm
        · rw [utf8Encode_cons, henc, hbytes]

theorem utf8Decode_spec (bs cs : List Nat) (h : utf8Decode bs = some cs) :
    (∀ c ∈ cs, Nat.isValidChar c) ∧ utf8Encode cs = bs :=
  utf8DecodeAux_spec bs.length bs cs h

/-- `Char.ofNat` is a section of `Char.toNat` on valid scalar values. -/
theorem char_toNat_ofNat {n : Nat} (h : n.isValidChar) : (Char.ofNat n).toNat = n := by
  rw [Char.ofNat, dif_pos h]
  rfl

/-- A path that is representable as text is recovered from that text:
re-encoding the text's scalar values yields the path's bytes. -/
theorem pathToStr_roundTrip (p : PathBuf) (s : String) (h : pathToStr p = some s) :
    pathFromStr s = p := by
  unfold pathToStr at h
  rw [Option.map_eq_some'] at h
  obtain ⟨cs, hdec, rfl⟩ := h
  obtain ⟨hval, henc⟩ := utf8Decode_spec _ _ hdec
  unfold pathFromStr
  show utf8Encode ((cs.map Char.ofNat).map Char.toNat) = p
  rw [List.map_map]
  have hmap : cs.map (Char.toNat ∘ Char.ofNat) = cs := by
    have : ∀ c ∈ cs, (Char.toNat ∘ Char.ofNat) c = id c := by
      intro c hc
      exact char_toNat_ofNat (hval c hc)
    rw [List.map_congr_left this, List.map_id]
  rw [hmap, henc]

/-! ### Address derivation (claims C1, C2, C3) -/

/-- C1: for every `Config` whose `rpc_client.store_addr` is `Some` of a
network-reachable variant (`GrpcHttp2` host/port or `GrpcUds`
unix-socket), `server_rpc_addr()` returns `Ok(Some(a))` where `a` is the
same address value as the configured client address. -/
theorem server_rpc_addr_network_identity (c : Config) (a : StoreClientAddr)
    (hstore : c.rpc_client.store_addr = some a) (hnet : a.isNetwork = true) :
    c.server_rpc_addr = Except.ok (some a) := by
  cases a with
  | GrpcHttp2 sa => simp [Config.server_rpc_addr, hstore, optionTranspose]
  | GrpcUds p => simp [Config.server_rpc_addr, hstore, optionTranspose]
  | Mem m => simp [Addr.isNetwork] at hnet

theorem server_rpc_addr_network_identity_witness :
    (Config.new_with_rpc [116, 101, 115, 116]
        (Addr.GrpcHttp2 ⟨0, 0, 0, 0, 4402⟩)).rpc_client.store_addr
      = some (Addr.GrpcHttp2 ⟨0, 0, 0, 0, 4402⟩)
    ∧ (Addr.GrpcHttp2 ⟨0, 0, 0, 0, 4402⟩).isNetwork = true
    ∧ (Config.new_with_rpc [116, 101, 115, 116]
        (Addr.GrpcHttp2 ⟨0, 0, 0, 0, 4402⟩)).server_rpc_addr
      = Except.ok (some (Addr.GrpcHttp2 ⟨0, 0, 0, 0, 4402⟩)) :=
  ⟨rfl, rfl, server_rpc_addr_network_identity _ _ rfl rfl⟩

/-- C2: for every `Config` whose `rpc_client.store_addr` is `Some` of the
in-process/memory variant, `server_rpc_addr()` returns an error (never
`Ok`) with a descriptive message. -/
theorem server_rpc_addr_mem_error (c : Config) (m : MemChannel)
    (hstore : c.rpc_client.store_addr = some (Addr.Mem m)) :
    c.server_rpc_addr = Except.error "can not derive rpc_addr for mem addr" := by
  simp [Config.server_rpc_addr, hstore, optionTranspose]

theorem server_rpc_addr_mem_error_witness :
    (Config.new_with_rpc [] (Addr.Mem ⟨0⟩)).rpc_client.store_addr = some (Addr.Mem ⟨0⟩)
    ∧ (Config.new_with_rpc [] (Addr.Mem ⟨0⟩)).server_rpc_addr
      = Except.error "can not derive rpc_addr for mem addr" :=
  ⟨rfl, server_rpc_addr_mem_error _ _ rfl⟩

/-- C3: for every `Config` whose `rpc_client.store_addr` is `None`,
`server_rpc_addr()` returns `Ok(None)`: absence is reported as absence,
never as an error. -/
theorem server_rpc_addr_absent (c : Config)
    (hstore : c.rpc_client.store_addr = none) :
    c.server_rpc_addr = Except.ok none := by
  simp [Config.server_rpc_addr, hstore, optionTranspose]

theorem server_rpc_addr_absent_witness :
    (Config.mk [] RpcClientConfig.default MetricsConfig.default).rpc_client.store_addr = none
    ∧ (Config.mk [] RpcClientConfig.default MetricsConfig.default).server_rpc_addr
      = Except.ok none :=
  ⟨rfl, server_rpc_addr_absent _ rfl⟩

/-! ### Constructors (claims C6, C7) -/

/-- C6: `new_with_rpc(p, a)` returns a `Config` whose path is `p`, whose
RPC-client block has `store_addr = Some(a)` with every other field at its
default, and whose metrics block is the default; the construction is
total (no error conditions). -/
theorem new_with_rpc_structure (p : PathBuf) (a : StoreClientAddr) :
    Config.new_with_rpc p a =
      { path := p
        rpc_client := { store_addr := some a, other := RpcOtherFields.default }
        metrics := MetricsConfig.default } := rfl

/-- C7: `new_grpc(p)` parses the fixed constant `"grpc://0.0.0.0:4402"` —
the host/port address on all interfaces at port 4402 — successfully (so
the `unwrap` never panics) and equals `new_with_rpc` at that address. -/
theorem new_grpc_eq_new_with_rpc (p : PathBuf) :
    Config.new_grpc p
      = some (Config.new_with_rpc p (Addr.GrpcHttp2 ⟨0, 0, 0, 0, 4402⟩)) := by
  have hparse : parseAddr "grpc://0.0.0.0:4402"
      = some (Addr.GrpcHttp2 ⟨0, 0, 0, 0, 4402⟩) := by decide
  simp [Config.new_grpc, hparse]

/-! ### Merge-source participation: cloning (claim C9) -/

/-- C9: `clone_into_box()` produces a structural copy of the
configuration: the boxed source equals the receiver (so its `collect()`
result is the receiver's), and — every operation being a pure function
over the value — the receiver is unchanged by the call. -/
theorem clone_into_box_structural (c : Config) :
    c.clone_into_box = c ∧ (c.clone_into_box).collect = c.collect :=
  ⟨rfl, rfl⟩

/-! ### Decimal digit and split lemmas for the address parser -/

theorem charToDigit_ofNat (m : Nat) (hm : m < 10) :
    charToDigit (Char.ofNat (48 + m)) = some m := by
  have hv : Nat.isValidChar (48 + m) := Or.inl (by omega)
  rw [charToDigit, char_toNat_ofNat hv, if_pos (by omega)]
  congr 1
  omega

theorem parseNatAux_append (xs ys : List Char) (acc : Nat) :
    parseNatAux (xs ++ ys) acc =
      match parseNatAux xs acc with
      | some a => parseNatAux ys a
      | none => none := by
  induction xs generalizing acc with
  | nil => rfl
  | cons c tl ih =>
    simp only [List.cons_append, parseNatAux]
    cases hc : charToDigit c with
    | none => rfl
    | some d => exact ih _

theorem natDigitsRevAux_lt_10 (fuel : Nat) : ∀ (n : Nat), n < fuel →
    ∀ d ∈ natDigitsRevAux fuel n, d < 10 := by
  induction fuel with
  | zero => intro n hn; omega
  | succ fuel ih =>
    intro n hn d hd
    simp only [natDigitsRevAux] at hd
    split at hd
    · rename_i h10
      simp only [List.mem_singleton] at hd
      omega
    · rename_i h10
      rcases List.mem_cons.mp hd with rfl | hmem
      · omega
      · exact ih (n / 10) (by omega) d hmem

theorem natDigitsRevAux_ne_nil (fuel n : Nat) (h : 0 < fuel) :
    natDigitsRevAux fuel n ≠ [] := by
  cases fuel with
  | zero => omega
  | succ fuel =>
    simp only [natDigitsRevAux]
    split <;> simp

theorem parseNatAux_natDigitsRevAux (fuel : Nat) : ∀ (n : Nat), n < fuel → ∀ (acc : Nat),
    parseNatAux ((natDigitsRevAux fuel n).reverse.map (fun d => Char.ofNat (48 + d))) acc
      = some (acc * 10 ^ (natDigitsRevAux fuel n).length + n) := by
  induction fuel with
  | zero => intro n hn; omega
  | succ fuel ih =>
    intro n hn acc
    by_cases h10 : n < 10
    · simp only [natDigitsRevAux, if_pos h10, List.reverse_singleton, List.map_cons,
        List.map_nil, List.length_singleton, parseNatAux, charToDigit_ofNat n h10]
      congr 1
      simp [Nat.pow_one]
      ring
    · simp only [natDigitsRevAux, if_neg h10, List.reverse_cons, List.map_append,
        List.map_cons, List.map_nil, List.length_cons]
      rw [parseNatAux_append, ih (n / 10) (by omega) acc]
      simp only [parseNatAux, charToDigit_ofNat (n % 10) (by omega)]
      congr 1
      have hpow : (10:Nat) ^ ((natDigitsRevAux fuel (n / 10)).length + 1)
          = 10 ^ (natDigitsRevAux fuel (n / 10)).length * 10 := pow_succ 10 _
      rw [hpow]
      have hdm : 10 * (n / 10) + n % 10 = n := Nat.div_add_mod n 10
      ring_nf
      omega

theorem parseNatChars_ne_nil (cs : List Char) (h : cs ≠ []) :
    parseNatChars cs = parseNatAux cs 0 := by
  cases cs with
  | nil => exact absurd rfl h
  | cons c tl => rfl

theorem parseNatChars_natToChars (n : Nat) : parseNatChars (natToChars n) = some n := by
  have hne : natToChars n ≠ [] := by
    unfold natToChars natDigitsRev
    intro hc
    have := natDigitsRevAux_ne_nil (n + 1) n (by omega)
    simp at hc
    exact this hc
  have hval := parseNatAux_natDigitsRevAux (n + 1) n (by omega) 0
  rw [parseNatChars_ne_nil _ hne]
  unfold natToChars natDigitsRev
  rw [hval]
  simp

theorem natToChars_digit_bounds (n : Nat) :
    ∀ c ∈ natToChars n, 48 ≤ c.toNat ∧ c.toNat ≤ 57 := by
  intro c hc
  unfold natToChars natDigitsRev at hc
  rw [List.mem_map] at hc
  obtain ⟨d, hd, rfl⟩ := hc
  rw [List.mem_reverse] at hd
  have hd10 : d < 10 := natDigitsRevAux_lt_10 (n + 1) n (by omega) d hd
  rw [char_toNat_ofNat (Or.inl (by omega))]
  omega

theorem colon_not_mem_natToChars (n : Nat) : ':' ∉ natToChars n := by
  intro hmem
  have := natToChars_digit_bounds n ':' hmem
  have hx : (':' : Char).toNat = 58 := rfl
  omega

theorem dot_not_mem_natToChars (n : Nat) : '.' ∉ natToChars n := by
  intro hmem
  have := natToChars_digit_bounds n '.' hmem
  have hx : ('.' : Char).toNat = 46 := rfl
  omega

theorem splitOnChar_ne_nil (sep : Char) (xs : List Char) : splitOnChar sep xs ≠ [] := by
  cases xs with
  | nil => simp [splitOnChar]
  | cons c tl =>
    simp only [splitOnChar]
    split <;> split <;> simp

theorem splitOnChar_of_not_mem (sep : Char) (xs : List Char) (h : sep ∉ xs) :
    splitOnChar sep xs = [xs] := by
  induction xs with
  | nil => rfl
  | cons c tl ih =>
    have hc : c ≠ sep := fun he => h (he ▸ List.mem_cons_self c tl)
    have htl : sep ∉ tl := fun hm => h (List.mem_cons_of_mem c hm)
    simp only [splitOnChar, ih htl]
    rw [if_neg hc]

theorem splitOnChar_append_sep (sep : Char) (xs ys : List Char) (h : sep ∉ xs) :
    splitOnChar sep (xs ++ sep :: ys) = xs :: splitOnChar sep ys := by
  induction xs with
  | nil =>
    obtain ⟨g, gs, hg⟩ : ∃ g gs, splitOnChar sep ys = g :: gs := by
      cases hx : splitOnChar sep ys with
      | nil => exact absurd hx (splitOnChar_ne_nil sep ys)
      | cons g gs => exact ⟨g, gs, rfl⟩
    simp only [List.nil_append, splitOnChar, hg]
    simp
  | cons c tl ih =>
    have hc : c ≠ sep := fun he => h (he ▸ List.mem_cons_self c tl)
    have htl : sep ∉ tl := fun hm => h (List.mem_cons_of_mem c hm)
    simp only [List.cons_append, splitOnChar, List.append_eq, ih htl]
    rw [if_neg hc]

theorem parseOctet_natToChars (n : Nat) (h : n ≤ 255) :
    parseOctet (natToChars n) = some n := by
  simp only [parseOctet, parseNatChars_natToChars]
  rw [if_pos h]

theorem socketAddrToChars_normal (a : SocketAddr) :
    socketAddrToChars a
      = natToChars a.ipa ++ ('.' :: (natToChars a.ipb ++ ('.' :: (natToChars a.ipc ++
          ('.' :: (natToChars a.ipd ++ (':' :: natToChars a.port))))))) := by
  simp [socketAddrToChars, List.append_assoc]

theorem parseSocketAddr_roundTrip (a : SocketAddr) (hwf : a.wf) :
    parseSocketAddrChars (socketAddrToChars a) = some a := by
  obtain ⟨h1, h2, h3, h4, h5⟩ := hwf
  have hnc : ∀ n : Nat, ':' ∉ natToChars n := colon_not_mem_natToChars
  have hnd : ∀ n : Nat, '.' ∉ natToChars n := dot_not_mem_natToChars
  have hhost : ':' ∉ natToChars a.ipa ++ ('.' :: (natToChars a.ipb ++ ('.' ::
      (natToChars a.ipc ++ ('.' :: natToChars a.ipd))))) := by
    intro hmem
    simp only [List.mem_append, List.mem_cons] at hmem
    rcases hmem with h | h | h | h | h | h | h <;>
      first
        | exact hnc _ h
        | exact absurd h (by decide)
  have hsplitColon : splitOnChar ':' (socketAddrToChars a)
      = [natToChars a.ipa ++ ('.' :: (natToChars a.ipb ++ ('.' :: (natToChars a.ipc ++
          ('.' :: natToChars a.ipd))))), natToChars a.port] := by
    rw [socketAddrToChars_normal]
    have hassoc : natToChars a.ipa ++ ('.' :: (natToChars a.ipb ++ ('.' :: (natToChars a.ipc ++
        ('.' :: (natToChars a.ipd ++ (':' :: natToChars a.port)))))))
        = (natToChars a.ipa ++ ('.' :: (natToChars a.ipb ++ ('.' :: (natToChars a.ipc ++
            ('.' :: natToChars a.ipd)))))) ++ (':' :: natToChars a.port) := by
      simp [List.append_assoc]
    rw [hassoc, splitOnChar_append_sep ':' _ _ hhost,
      splitOnChar_of_not_mem ':' _ (hnc a.port)]
  have hsplitDots : splitOnChar '.' (natToChars a.ipa ++ ('.' :: (natToChars a.ipb ++ ('.' ::
      (natToChars a.ipc ++ ('.' :: natToChars a.ipd))))))
      = [natToChars a.ipa, natToChars a.ipb, natToChars a.ipc, natToChars a.ipd] := by
    rw [splitOnChar_append_sep '.' _ _ (hnd a.ipa),
      splitOnChar_append_sep '.' _ _ (hnd a.ipb),
      splitOnChar_append_sep '.' _ _ (hnd a.ipc),
      splitOnChar_of_not_mem '.' _ (hnd a.ipd)]
  rw [parseSocketAddrChars, hsplitColon]
  simp only [hsplitDots, parseOctet_natToChars a.ipa (by omega),
    parseOctet_natToChars a.ipb (by omega), parseOctet_natToChars a.ipc (by omega),
    parseOctet_natToChars a.ipd (by omega), parseNatChars_natToChars]
  rw [if_pos (by omega)]



theorem natToChars_ne_nil (n : Nat) : natToChars n ≠ [] := by
  unfold natToChars natDigitsRev
  intro hc
  have := natDigitsRevAux_ne_nil (n + 1) n (by omega)
  simp at hc
  exact this hc

theorem natToChars_head (n : Nat) :
    ∃ c tl, natToChars n = c :: tl ∧ 48 ≤ c.toNat ∧ c.toNat ≤ 57 := by
  cases hx : natToChars n with
  | nil => exact absurd hx (natToChars_ne_nil n)
  | cons c tl =>
    have hmem : c ∈ natToChars n := by rw [hx]; exact List.mem_cons_self c tl
    obtain ⟨hlo, hhi⟩ := natToChars_digit_bounds n c hmem
    exact ⟨c, tl, rfl, hlo, hhi⟩

theorem stripPrefixChars_append (pre ys : List Char) :
    stripPrefixChars pre (pre ++ ys) = some ys := by
  induction pre with
  | nil => rfl
  | cons p ps ih => simp [stripPrefixChars, ih]

theorem parseAddr_addrToString (a : Addr) (hnet : a.isNetwork = true) (hwf : a.wf) :
    parseAddr (addrToString a) = some a := by
  cases a with
  | GrpcHttp2 sa =>
    show parseAddrChars ('g' :: 'r' :: 'p' :: 'c' :: ':' :: '/' :: '/' :: socketAddrToChars sa)
      = some (Addr.GrpcHttp2 sa)
    have h1 : stripPrefixChars ['g', 'r', 'p', 'c', ':', '/', '/']
        ('g' :: 'r' :: 'p' :: 'c' :: ':' :: '/' :: '/' :: socketAddrToChars sa)
        = some (socketAddrToChars sa) :=
      stripPrefixChars_append ['g', 'r', 'p', 'c', ':', '/', '/'] (socketAddrToChars sa)
    obtain ⟨c, tl, hct, hlo, hhi⟩ := natToChars_head sa.ipa
    have hsock : socketAddrToChars sa
        = c :: (tl ++ ('.' :: (natToChars sa.ipb ++ ('.' :: (natToChars sa.ipc ++
            ('.' :: (natToChars sa.ipd ++ (':' :: natToChars sa.port)))))))) := by
      rw [socketAddrToChars_normal, hct]
      rfl
    have hcu : c ≠ 'u' := by
      intro he
      have : ('u' : Char).toNat = 117 := rfl
      rw [he] at hhi
      omega
    have h2 : stripPrefixChars ['u', 'd', 's', ':'] (socketAddrToChars sa) = none := by
      rw [hsock]
      simp only [stripPrefixChars]
      rw [if_neg hcu]
    simp only [parseAddrChars, h1, h2]
    rw [parseSocketAddr_roundTrip sa hwf]
    rfl
  | GrpcUds p =>
    show parseAddrChars
        ('g' :: 'r' :: 'p' :: 'c' :: ':' :: '/' :: '/' :: 'u' :: 'd' :: 's' :: ':' :: p.data)
      = some (Addr.GrpcUds p)
    have h1 : stripPrefixChars ['g', 'r', 'p', 'c', ':', '/', '/']
        ('g' :: 'r' :: 'p' :: 'c' :: ':' :: '/' :: '/' :: 'u' :: 'd' :: 's' :: ':' :: p.data)
        = some ('u' :: 'd' :: 's' :: ':' :: p.data) :=
      stripPrefixChars_append ['g', 'r', 'p', 'c', ':', '/', '/'] ('u' :: 'd' :: 's' :: ':' :: p.data)
    have h2 : stripPrefixChars ['u', 'd', 's', ':'] ('u' :: 'd' :: 's' :: ':' :: p.data)
        = some p.data :=
      stripPrefixChars_append ['u', 'd', 's', ':'] p.data
    simp only [parseAddrChars, h1, h2]
  | Mem m => simp [Addr.isNetwork] at hnet

theorem rpcOtherFields_default (o : RpcOtherFields) : o = RpcOtherFields.default := by
  cases o
  rfl

theorem stringEntries_map (l : List (String × String)) :
    stringEntries (l.map (fun kv => (kv.1, CValue.str kv.2))) = some l := by
  induction l with
  | nil => rfl
  | cons kv tl ih =>
    obtain ⟨k, v⟩ := kv
    simp [stringEntries, ih]

theorem deserializeMetrics_collectFrag (m : MetricsConfig) :
    deserializeMetrics m.collectFrag = some m := by
  rw [deserializeMetrics, MetricsConfig.collectFrag, stringEntries_map]
  rfl

theorem deserializeRpcClient_collectFrag (c : RpcClientConfig) (a : StoreClientAddr)
    (hstore : c.store_addr = some a) (hnet : a.isNetwork = true) (hwf : a.wf) :
    deserializeRpcClient c.collectFrag = some c := by
  rw [RpcClientConfig.collectFrag, hstore]
  simp only [deserializeRpcClient, lookupKey]
  rw [if_pos trivial]
  simp only [parseAddr_addrToString a hnet hwf, Option.map_some']
  congr 1
  cases c with
  | mk sa o =>
    simp only at hstore
    rw [hstore, rpcOtherFields_default o]

/-! ### Merge-source participation: flattening (claims C4, C5, C10) -/

/-- `collect` on a text-representable path: the full result map. -/
theorem collect_eq_of_pathToStr_some (c : Config) (s : String)
    (h : pathToStr c.path = some s) :
    c.collect = Except.ok [("path", CValue.str s),
      ("rpc_client", CValue.table c.rpc_client.collectFrag),
      ("metrics", CValue.table c.metrics.collectFrag)] := by
  simp [Config.collect, h, RpcClientConfig.collect, MetricsConfig.collect,
    insert_into_config_map, bind, Except.bind, pure, Except.pure]

/-- `collect` on a non-text path: the foreign error from the source. -/
theorem collect_eq_of_pathToStr_none (c : Config)
    (h : pathToStr c.path = none) :
    c.collect = Except.error (ConfigError.Foreign "No `path` set. Path is required.") := by
  simp [Config.collect, h, bind, Except.bind, Functor.map, Except.map,
    RpcClientConfig.collect, MetricsConfig.collect]

/-- C4: `collect()` fails, with the missing/invalid-configuration error,
exactly when the path cannot be represented as text, and has no other
failure mode: on every text-representable path it returns `Ok`. -/
theorem collect_error_iff_path_not_text (c : Config) :
    (c.collect = Except.error (ConfigError.Foreign "No `path` set. Path is required.") ↔
      pathToStr c.path = none)
    ∧ ((∃ m, c.collect = Except.ok m) ↔ pathToStr c.path ≠ none) := by
  cases h : pathToStr c.path with
  | none =>
    rw [collect_eq_of_pathToStr_none c h]
    simp
  | some s =>
    rw [collect_eq_of_pathToStr_some c s h]
    simp

/-- C5: on every `Config` whose path is text-representable as `s`,
`collect()` succeeds with exactly the three top-level keys `path`,
`rpc_client` and `metrics`; `path` is bound to `s` and the nested keys to
the nested blocks' own `collect()` fragments. -/
theorem collect_three_keys (c : Config) (s : String)
    (h : pathToStr c.path = some s) :
    c.collect = Except.ok [("path", CValue.str s),
      ("rpc_client", CValue.table c.rpc_client.collectFrag),
      ("metrics", CValue.table c.metrics.collectFrag)] :=
  collect_eq_of_pathToStr_some c s h

theorem collect_three_keys_witness :
    pathToStr [116, 101, 115, 116] = some "test"
    ∧ (Config.mk [116, 101, 115, 116] RpcClientConfig.default MetricsConfig.default).collect
      = Except.ok [("path", CValue.str "test"),
          ("rpc_client", CValue.table RpcClientConfig.default.collectFrag),
          ("metrics", CValue.table MetricsConfig.default.collectFrag)] :=
  ⟨rfl, collect_three_keys _ "test" rfl⟩

/-- C10: an empty path is accepted at flatten time — `collect()` succeeds
and binds `path` to the empty string — and the "No `path` set" error only
ever arises from a path whose bytes are not valid UTF-8 text. -/
theorem collect_empty_path_ok :
    (∀ (rc : RpcClientConfig) (mc : MetricsConfig),
      (Config.mk [] rc mc).collect =
        Except.ok [("path", CValue.str ""),
          ("rpc_client", CValue.table rc.collectFrag),
          ("metrics", CValue.table mc.collectFrag)])
    ∧ (∀ (c : Config) (e : ConfigError), c.collect = Except.error e →
        utf8Decode c.path = none) := by
  constructor
  · intro rc mc
    exact collect_eq_of_pathToStr_some _ "" rfl
  · intro c e herr
    cases hdec : utf8Decode c.path with
    | none => rfl
    | some cs =>
      have hsome : pathToStr c.path = some (String.mk (cs.map Char.ofNat)) := by
        rw [pathToStr, hdec]
        rfl
      rw [collect_eq_of_pathToStr_some c _ hsome] at herr
      cases herr

theorem collect_empty_path_ok_witness :
    (Config.mk [] RpcClientConfig.default MetricsConfig.default).collect
      = Except.ok [("path", CValue.str ""),
          ("rpc_client", CValue.table RpcClientConfig.default.collectFrag),
          ("metrics", CValue.table MetricsConfig.default.collectFrag)]
    ∧ ((Config.mk [0xC0, 0x80] RpcClientConfig.default MetricsConfig.default).collect
        = Except.error (ConfigError.Foreign "No `path` set. Path is required.")
      → utf8Decode [0xC0, 0x80] = none) :=
  ⟨collect_empty_path_ok.1 RpcClientConfig.default MetricsConfig.default,
   collect_empty_path_ok.2 (Config.mk [0xC0, 0x80] RpcClientConfig.default MetricsConfig.default)
     (ConfigError.Foreign "No `path` set. Path is required.")⟩

theorem collect_error_iff_path_not_text_witness :
    (Config.mk [0xFF] RpcClientConfig.default MetricsConfig.default).collect
      = Except.error (ConfigError.Foreign "No `path` set. Path is required.") :=
  (collect_error_iff_path_not_text
    (Config.mk [0xFF] RpcClientConfig.default MetricsConfig.default)).1.mpr rfl

/-! ### Round trip through the merge engine (claim C8) -/

/-- C8: for every `Config` holding a network-style store address (with
its numeric components in their Rust machine-integer ranges), flattening
via `collect()` and rebuilding through the merge engine — merging the
single source, then typed deserialization — yields a `Config` equal to
the original. -/
theorem collect_merge_deserialize_roundTrip (c : Config) (a : StoreClientAddr)
    (m : List (String × CValue))
    (hstore : c.rpc_client.store_addr = some a)
    (hnet : a.isNetwork = true) (hwf : a.wf)
    (hcollect : c.collect = Except.ok m) :
    deserializeConfig (buildMerged [m]) = some c := by
  cases hp : pathToStr c.path with
  | none =>
    rw [collect_eq_of_pathToStr_none c hp] at hcollect
    cases hcollect
  | some s =>
    rw [collect_eq_of_pathToStr_some c s hp] at hcollect
    injection hcollect with hm
    subst hm
    have hmerge : buildMerged [[("path", CValue.str s),
        ("rpc_client", CValue.table c.rpc_client.collectFrag),
        ("metrics", CValue.table c.metrics.collectFrag)]]
        = [("path", CValue.str s),
           ("rpc_client", CValue.table c.rpc_client.collectFrag),
           ("metrics", CValue.table c.metrics.collectFrag)] := by
      simp [buildMerged, mergeMaps, insert_into_config_map]
    rw [hmerge]
    simp [deserializeConfig, lookupKey,
      deserializeRpcClient_collectFrag c.rpc_client a hstore hnet hwf,
      deserializeMetrics_collectFrag c.metrics,
      pathToStr_roundTrip c.path s hp]

theorem collect_merge_deserialize_roundTrip_witness :
    (Config.new_with_rpc [116, 101, 115, 116]
        (Addr.GrpcHttp2 ⟨0, 0, 0, 0, 4402⟩)).rpc_client.store_addr
      = some (Addr.GrpcHttp2 ⟨0, 0, 0, 0, 4402⟩)
    ∧ (Addr.GrpcHttp2 ⟨0, 0, 0, 0, 4402⟩).isNetwork = true
    ∧ (Addr.GrpcHttp2 ⟨0, 0, 0, 0, 4402⟩).wf
    ∧ (Config.new_with_rpc [116, 101, 115, 116]
        (Addr.GrpcHttp2 ⟨0, 0, 0, 0, 4402⟩)).collect
      = Except.ok [("path", CValue.str "test"),
          ("rpc_client", CValue.table [("store_addr", CValue.str "grpc://0.0.0.0:4402")]),
          ("metrics", CValue.table [])]
    ∧ deserializeConfig (buildMerged [[("path", CValue.str "test"),
          ("rpc_client", CValue.table [("store_addr", CValue.str "grpc://0.0.0.0:4402")]),
          ("metrics", CValue.table [])]])
      = some (Config.new_with_rpc [116, 101, 115, 116] (Addr.GrpcHttp2 ⟨0, 0, 0, 0, 4402⟩)) :=
  ⟨rfl, rfl, by decide, rfl,
    collect_merge_deserialize_roundTrip _ _ _ rfl rfl (by decide) rfl⟩

end IrohStore
